import Mathlib

/-!
# util/windows/windows_api.go

A shallow embedding of the native-API access layer of the agent
(`src/util/windows/windows_api.go`) and the properties of it that the
specification states.

## Modelling conventions

* `uintptr`, `uint32`, `syscall.Handle` and `syscall.Errno` values are natural
  numbers; a value stored into a `uint32` variable is reduced modulo `2^32`.
* A native procedure (`*syscall.LazyProc`, `syscall.GetAdaptersInfo`) is a
  deterministic function of the history of calls made to it so far and of the
  arguments of the present call (`Proc`).  Every call is appended to the history,
  so that the number of calls a wrapper makes and the arguments it passes are
  observable.
* `LazyProc.Call` returns `(r1, r2, lastErr)` where `lastErr` is always a non-nil
  `error` built from `GetLastError`; the wrappers return it unchanged, so a
  returned `error` is `some lastErr` and Go's `nil` is `none`.
* An out-parameter is described by what the native call stored through the
  pointer: `none` when nothing was stored (the Go variable keeps its zero
  value), `some x` when `x` was stored.
* A run-time panic of the Go code (index out of range, `StringToUTF16Ptr` on a
  string with a NUL) is the result `none` of a run.
-/

namespace Windows

/-! ## Constants (`const` block, lines 44-57) -/

def ERROR_SUCCESS : Nat := 0
def ERROR_FILE_NOT_FOUND : Nat := 2
def DRIVE_REMOVABLE : Nat := 2
def DRIVE_FIXED : Nat := 3
def HKEY_LOCAL_MACHINE : Nat := 0x80000002
def RRF_RT_REG_SZ : Nat := 0x00000002
def RRF_RT_REG_DWORD : Nat := 0x00000010
def PDH_FMT_DOUBLE : Nat := 0x00000200
def PDH_INVALID_DATA : Nat := 0xc0000bc6
def PDH_INVALID_HANDLE : Nat := 0xC0000bbc
def PDH_NO_DATA : Nat := 0x800007d5

/-- The `syscall.ERROR_BUFFER_OVERFLOW` errno of the Go standard library
(Windows error 111), which `GetAdapterList` compares against. -/
def ERROR_BUFFER_OVERFLOW : Nat := 111

/-- The type `syscall.Errno`. -/
abbrev Errno := Nat

/-- The type `syscall.Handle`. -/
abbrev Handle := Nat

/-- The struct `PDH_FMT_COUNTERVALUE_DOUBLE` (lines 38-42); the `float64` is kept
as its 64-bit pattern. -/
structure PDH_FMT_COUNTERVALUE_DOUBLE where
  CStatus : Nat
  DoubleValue : Nat
deriving DecidableEq, Repr

/-! ## Native procedures -/

/-- One call of a native procedure: the arguments passed and the answer given. -/
structure Event (A R : Type) where
  args : A
  resp : R
deriving DecidableEq, Repr

/-- A native procedure: its answer to a call, given the calls made so far. -/
abbrev Proc (A R : Type) := List (Event A R) → A → R

/-- Calling a native procedure: the answer, and the history extended by the call. -/
def Proc.Call {A R : Type} (p : Proc A R) (hist : List (Event A R)) (a : A) :
    R × List (Event A R) :=
  (p hist a, hist ++ [⟨a, p hist a⟩])

/-- The run of a wrapper: what it returned (`none` when the Go code panicked) and
the history of native calls at its end. -/
structure Run (A R ρ : Type) where
  ret : Option ρ
  log : List (Event A R)
deriving DecidableEq, Repr

/-- Whether a Go string holds a NUL byte. -/
def hasNUL (s : String) : Bool :=
  s.toList.any (fun c => c.toNat == 0)

/-- The function `syscall.StringToUTF16Ptr` of the Go standard library: a pointer
to the NUL-terminated UTF-16 encoding of `s`, represented by `s` itself; it panics
(`none`) when `s` contains a NUL byte. -/
def StringToUTF16Ptr (s : String) : Option String :=
  if hasNUL s then none else some s

/-! ## Performance counters (lines 136-169) -/

/-- The struct `CounterInfo` (lines 136-141). -/
structure CounterInfo where
  PostName : String
  CounterName : String
  Counter : Handle
deriving DecidableEq, Repr

/-- Arguments of `PdhOpenQuery`. -/
structure OpenQueryArgs where
  szDataSource : Nat
  dwUserData : Nat
deriving DecidableEq, Repr

/-- Arguments of `PdhAddCounterW`. -/
structure AddCounterArgs where
  hQuery : Handle
  szFullCounterPath : String
  dwUserData : Nat
deriving DecidableEq, Repr

/-- Answer of `PdhOpenQuery` and `PdhAddCounterW`: the status `r1`, the last-error
that `Call` returns as `err`, and the handle stored through the out-pointer. -/
structure PdhResp where
  r1 : Nat
  lastErr : Errno
  stored : Option Handle
deriving DecidableEq, Repr

/-- The function `CreateQuery` (lines 143-151). -/
def CreateQuery (PdhOpenQuery : Proc OpenQueryArgs PdhResp)
    (hist : List (Event OpenQueryArgs PdhResp)) :
    Run OpenQueryArgs PdhResp (Handle × Option Errno) :=
  let (res, log) := PdhOpenQuery.Call hist ⟨0, 0⟩
  let query : Handle := res.stored.getD 0
  if res.r1 ≠ 0 then
    ⟨some (0, some res.lastErr), log⟩
  else
    ⟨some (query, none), log⟩

/-- The function `CreateCounter` (lines 153-169). -/
def CreateCounter (PdhAddCounter : Proc AddCounterArgs PdhResp)
    (hist : List (Event AddCounterArgs PdhResp)) (query : Handle) (k v : String) :
    Run AddCounterArgs PdhResp (Option CounterInfo × Option Errno) :=
  match StringToUTF16Ptr v with
  | none => ⟨none, hist⟩
  | some path =>
    let (res, log) := PdhAddCounter.Call hist ⟨query, path, 0⟩
    let counter : Handle := res.stored.getD 0
    if res.r1 ≠ 0 then
      ⟨some (none, some res.lastErr), log⟩
    else
      ⟨some (some ⟨k, v, counter⟩, none), log⟩

/-! ## Registry (lines 83-134) -/

/-- Arguments of `RegGetValueW`.  `pvData` is `none` for the null pointer and
`some n` for a buffer of `n` bytes; `pcbData` is the value of the `uint32` that
the last argument points to when the call is made. -/
structure RegArgs where
  hkey : Nat
  lpSubKey : String
  lpValue : String
  dwFlags : Nat
  pdwType : Nat
  pvData : Option Nat
  pcbData : Nat
deriving DecidableEq, Repr

/-- Answer of `RegGetValueW`: the status `r1`, the last-error that `Call` returns
as `err`, the elements stored through `pvData` (read at the element type of the
caller's buffer: `uint32` for `&num`, `uint16` for `&buf[0]`) and the length
stored through `pcbData`. -/
structure RegResp where
  r1 : Nat
  lastErr : Errno
  data : List Nat
  cbData : Option Nat
deriving DecidableEq, Repr

/-- Contents of the buffer `buf` after a native call stored `data` at its start. -/
def storeInto (buf data : List Nat) : List Nat :=
  data.take buf.length ++ buf.drop data.length

/-- The function `RegGetInt` (lines 83-100). -/
def RegGetInt (RegGetValue : Proc RegArgs RegResp) (hist : List (Event RegArgs RegResp))
    (hKey : Nat) (subKey value : String) :
    Run RegArgs RegResp (Nat × Nat × Option Errno) :=
  match StringToUTF16Ptr subKey, StringToUTF16Ptr value with
  | some sk, some vl =>
    let numlen : Nat := 4
    let (res, log) := RegGetValue.Call hist ⟨hKey, sk, vl, RRF_RT_REG_DWORD, 0, some 4, numlen⟩
    let num : Nat := res.data.headD 0 % 2 ^ 32
    let ret := res.r1
    if ret ≠ ERROR_SUCCESS then
      ⟨some (0, ret, some res.lastErr), log⟩
    else
      ⟨some (num, ret, none), log⟩
  | _, _ => ⟨none, hist⟩

/-- The function `RegGetString` (lines 102-134).  `UTF16ToString` stands for
`syscall.UTF16ToString` of the Go standard library. -/
def RegGetString (UTF16ToString : List Nat → String) (RegGetValue : Proc RegArgs RegResp)
    (hist : List (Event RegArgs RegResp)) (hKey : Nat) (subKey value : String) :
    Run RegArgs RegResp (String × Nat × Option Errno) :=
  match StringToUTF16Ptr subKey, StringToUTF16Ptr value with
  | some sk, some vl =>
    let (res, log) := RegGetValue.Call hist ⟨hKey, sk, vl, RRF_RT_REG_SZ, 0, none, 0⟩
    let bufLen : Nat := res.cbData.getD 0 % 2 ^ 32
    let ret := res.r1
    if ret ≠ ERROR_SUCCESS then
      ⟨some ("", ret, some res.lastErr), log⟩
    else if bufLen = 0 then
      ⟨some ("", ret, none), log⟩
    else
      let buf : List Nat := List.replicate bufLen 0
      let (res2, log2) :=
        RegGetValue.Call log ⟨hKey, sk, vl, RRF_RT_REG_SZ, 0, some (2 * bufLen), bufLen⟩
      let buf := storeInto buf (res2.data.map (· % 2 ^ 16))
      let ret := res2.r1
      if ret ≠ ERROR_SUCCESS then
        ⟨some ("", ret, some res2.lastErr), log2⟩
      else
        ⟨some (UTF16ToString buf, ret, none), log2⟩
  | _, _ => ⟨none, hist⟩

/-! ## Network adapters (lines 171-186) -/

/-- Arguments of `syscall.GetAdaptersInfo`: the size in bytes of the buffer the
first argument points to, and the value of `*ol` when the call is made. -/
structure AdaptersArgs where
  bufSize : Nat
  ol : Nat
deriving DecidableEq, Repr

/-- Answer of the native `GetAdaptersInfo`: its result `r0`, the bytes stored in
the buffer and the length stored through `ol`. -/
structure AdaptersResp where
  r0 : Nat
  data : List Nat
  ol : Option Nat
deriving DecidableEq, Repr

/-- The type `os.SyscallError`. -/
structure SyscallError where
  Syscall : String
  Err : Errno
deriving DecidableEq, Repr

/-- The function `os.NewSyscallError`: `nil` for a `nil` error. -/
def NewSyscallError (name : String) (err : Option Errno) : Option SyscallError :=
  err.map (fun e => ⟨name, e⟩)

/-- The error `syscall.GetAdaptersInfo` returns: `nil` when `r0` is zero, and
`Errno(r0)` otherwise. -/
def errnoOf (r0 : Nat) : Option Errno :=
  if r0 ≠ 0 then some r0 else none

/-- The end of `GetAdapterList` (lines 182-185); the `*syscall.IpAdapterInfo` is
represented by the bytes of the buffer it points to. -/
def GetAdapterList.finish (a : List Nat) (err : Option Errno)
    (log : List (Event AdaptersArgs AdaptersResp)) :
    Run AdaptersArgs AdaptersResp (Option (List Nat) × Option SyscallError) :=
  if err ≠ none then
    ⟨some (none, NewSyscallError "GetAdaptersInfo" err), log⟩
  else
    ⟨some (some a, none), log⟩

/-- The function `GetAdapterList` (lines 171-186).  `&b[0]` on the slice made at
line 178 is out of range when its length `l` is zero. -/
def GetAdapterList (GetAdaptersInfo : Proc AdaptersArgs AdaptersResp)
    (hist : List (Event AdaptersArgs AdaptersResp)) :
    Run AdaptersArgs AdaptersResp (Option (List Nat) × Option SyscallError) :=
  let b : List Nat := List.replicate 1000 0
  let l : Nat := b.length % 2 ^ 32
  let (res, log) := GetAdaptersInfo.Call hist ⟨b.length, l⟩
  let a := storeInto b (res.data.map (· % 2 ^ 8))
  let l : Nat := res.ol.getD l % 2 ^ 32
  let err := errnoOf res.r0
  if err = some ERROR_BUFFER_OVERFLOW then
    let b : List Nat := List.replicate l 0
    if b.length = 0 then
      ⟨none, log⟩
    else
      let (res2, log2) := GetAdaptersInfo.Call log ⟨b.length, l⟩
      let a := storeInto b (res2.data.map (· % 2 ^ 8))
      let err := errnoOf res2.r0
      GetAdapterList.finish a err log2
  else
    GetAdapterList.finish a err log

/-! ## C strings (lines 188-196) -/

/-- What the loop of `BytePtrToString` did: the indices at which it read the array,
in order, and how it ended: `some i` when it left the loop with index `i`, `none`
when the index went out of the range of the array. -/
structure Scan where
  reads : List Nat
  stop : Option Nat
deriving DecidableEq, Repr

/-- The loop `for a[i] != 0 { i++ }` of `BytePtrToString` from index `i` on, over
the array `*[10000]uint8` at `p`, whose byte at index `j` is `a j`. -/
def BytePtrToString.loop (a : Nat → Nat) (i : Nat) : Scan :=
  if i < 10000 then
    if a i ≠ 0 then
      let s := BytePtrToString.loop a (i + 1)
      ⟨i :: s.reads, s.stop⟩
    else
      ⟨[i], some i⟩
  else
    ⟨[], none⟩
termination_by 10000 - i

/-- The function `BytePtrToString` (lines 188-196); the Go string is the list of
its bytes, and `none` is the index-out-of-range panic. -/
def BytePtrToString (a : Nat → Nat) : Option (List Nat) :=
  (BytePtrToString.loop a 0).stop.map (fun i => (List.range i).map a)

/-! ## Reading a counter (specification §4.3) -/

/-- Arguments of `PdhGetFormattedCounterValue`. -/
structure FormattedArgs where
  hCounter : Handle
  dwFormat : Nat
  lpdwType : Nat
deriving DecidableEq, Repr

/-- Answer of `PdhGetFormattedCounterValue`: the status `r1`, the last-error and
the value stored through the out-pointer. -/
structure FormattedResp where
  r1 : Nat
  lastErr : Errno
  stored : Option PDH_FMT_COUNTERVALUE_DOUBLE
deriving DecidableEq, Repr

/-- The closed classification of a read (specification §4.3, §9). -/
inductive StatusKind where
  | Success
  | Pending
  | Invalid
  | Fatal (code : Nat)
deriving DecidableEq, Repr

/-- Modelled from the spec: `readDouble` of the CounterValueReader (§4.3), whose
code is not in `windows_api.go` (the file declares only the procedure
`PdhGetFormattedCounterValue`, the struct `PDH_FMT_COUNTERVALUE_DOUBLE` and the
status constants).  It issues the native get-formatted-value call for the counter
handle with double formatting and classifies the returned status code; the value
is zero unless the status is success. -/
def readDouble (PdhGetFormattedCounterValue : Proc FormattedArgs FormattedResp)
    (hist : List (Event FormattedArgs FormattedResp)) (counterInfo : CounterInfo) :
    Run FormattedArgs FormattedResp (Nat × StatusKind) :=
  let (res, log) := PdhGetFormattedCounterValue.Call hist ⟨counterInfo.Counter, PDH_FMT_DOUBLE, 0⟩
  let value : PDH_FMT_COUNTERVALUE_DOUBLE := res.stored.getD ⟨0, 0⟩
  let status := res.r1
  if status = ERROR_SUCCESS then
    ⟨some (value.DoubleValue, StatusKind.Success), log⟩
  else if status = PDH_INVALID_DATA ∨ status = PDH_NO_DATA then
    ⟨some (0, StatusKind.Pending), log⟩
  else if status = PDH_INVALID_HANDLE then
    ⟨some (0, StatusKind.Invalid), log⟩
  else
    ⟨some (0, StatusKind.Fatal status), log⟩

/-! ## Names for the arguments and buffers of the native calls -/

/-- The arguments of the one call of `RegGetInt`. -/
def intArgs (hKey : Nat) (subKey value : String) : RegArgs :=
  ⟨hKey, subKey, value, RRF_RT_REG_DWORD, 0, some 4, 4⟩

/-- The arguments of the size-probing call of `RegGetString`. -/
def probeArgs (hKey : Nat) (subKey value : String) : RegArgs :=
  ⟨hKey, subKey, value, RRF_RT_REG_SZ, 0, none, 0⟩

/-- The arguments of the second call of `RegGetString`, for the length `n` that the
first call reported. -/
def fetchArgs (hKey : Nat) (subKey value : String) (n : Nat) : RegArgs :=
  ⟨hKey, subKey, value, RRF_RT_REG_SZ, 0, some (2 * n), n⟩

/-- The arguments of the first call of `GetAdapterList`: a buffer of 1000 bytes. -/
def firstArgs : AdaptersArgs := ⟨1000, 1000⟩

/-- The length that the answer `r` to the first call leaves in `l`. -/
def reported (r : AdaptersResp) : Nat := r.ol.getD 1000 % 2 ^ 32

/-- The buffer of `n` zero bytes after the native call with answer `r` stored its
data in it. -/
def filled (n : Nat) (r : AdaptersResp) : List Nat :=
  storeInto (List.replicate n 0) (r.data.map (· % 2 ^ 8))

/-! ## Properties -/

/-- A string without NUL marshals to itself. -/
theorem StringToUTF16Ptr_eq_some {s t : String} (h : StringToUTF16Ptr s = some t) :
    hasNUL s = false ∧ t = s := by
  unfold StringToUTF16Ptr at h
  cases hs : hasNUL s <;> simp_all

/-- A run of `CreateCounter` that made a native call: the string marshalled, and
the call is the one recorded. -/
theorem CreateCounter_log {p : Proc AddCounterArgs PdhResp}
    {hist : List (Event AddCounterArgs PdhResp)} {q : Handle} {k v : String}
    {ev : Event AddCounterArgs PdhResp}
    (h : (CreateCounter p hist q k v).log = hist ++ [ev]) :
    StringToUTF16Ptr v = some v ∧ ev = ⟨⟨q, v, 0⟩, p hist ⟨q, v, 0⟩⟩ := by
  unfold CreateCounter at h
  cases hv : StringToUTF16Ptr v with
  | none =>
    rw [hv] at h
    simp at h
  | some path =>
    obtain ⟨-, rfl⟩ := StringToUTF16Ptr_eq_some hv
    rw [hv] at h
    simp only [Proc.Call] at h
    split at h <;> simp at h <;> exact ⟨rfl, h.symm⟩

/-- The run of `CreateCounter` when the counter path marshals: one native call,
with the query handle and the path, whose answer decides the result. -/
theorem CreateCounter_run (p : Proc AddCounterArgs PdhResp)
    (hist : List (Event AddCounterArgs PdhResp)) (q : Handle) (k v : String)
    (hv : hasNUL v = false) :
    CreateCounter p hist q k v =
      ⟨some (if (p hist ⟨q, v, 0⟩).r1 ≠ 0 then (none, some (p hist ⟨q, v, 0⟩).lastErr)
        else (some ⟨k, v, (p hist ⟨q, v, 0⟩).stored.getD 0⟩, none)),
        hist ++ [⟨⟨q, v, 0⟩, p hist ⟨q, v, 0⟩⟩]⟩ := by
  have hm : StringToUTF16Ptr v = some v := by
    simp [StringToUTF16Ptr, hv]
  unfold CreateCounter
  rw [hm]
  simp only [Proc.Call]
  split_ifs <;> rfl

/-- Claim C1. `CreateCounter`, success case: for every query handle `q`, display
name `k` and counter path `v` (a path that can be passed to the native layer, that
is, without a NUL), if the native add-counter call for `q` and `v` returns status 0
and stores the counter handle `h`, then `CreateCounter(q, k, v)` makes exactly that
call and returns a `CounterInfo` with `PostName = k`, `CounterName = v` and
`Counter = h`, together with a nil error. -/
theorem CreateCounter_success (p : Proc AddCounterArgs PdhResp)
    (hist : List (Event AddCounterArgs PdhResp)) (q : Handle) (k v : String)
    (e : Errno) (h : Handle)
    (hv : hasNUL v = false)
    (hresp : p hist ⟨q, v, 0⟩ = ⟨0, e, some h⟩) :
    CreateCounter p hist q k v =
      ⟨some (some ⟨k, v, h⟩, none), hist ++ [⟨⟨q, v, 0⟩, ⟨0, e, some h⟩⟩]⟩ := by
  have hm : StringToUTF16Ptr v = some v := by
    simp [StringToUTF16Ptr, hv]
  simp [CreateCounter, hm, Proc.Call, hresp]

/-- Witness of C1: a native layer that answers status 0 and stores handle 7 for the
processor-time counter path. -/
theorem CreateCounter_success_witness :
    CreateCounter (fun _ _ => ⟨0, 3, some 7⟩) [] 1 "cpu" "\\Processor(_Total)\\% Processor Time"
      = ⟨some (some ⟨"cpu", "\\Processor(_Total)\\% Processor Time", 7⟩, none),
          [⟨⟨1, "\\Processor(_Total)\\% Processor Time", 0⟩, ⟨0, 3, some 7⟩⟩]⟩ :=
  CreateCounter_success (fun _ _ => ⟨0, 3, some 7⟩) [] 1 "cpu"
    "\\Processor(_Total)\\% Processor Time" 3 7 (by decide) rfl

/-- Counterexample to C2 as stated: two native answers with different non-zero
statuses (invalid handle, no data) and the same last-error make `CreateQuery`
return the same values, and likewise `CreateCounter`; hence no function recovers
the status from the returned error. -/
theorem error_does_not_carry_status :
    PDH_INVALID_HANDLE ≠ 0 ∧ PDH_NO_DATA ≠ 0 ∧ PDH_INVALID_HANDLE ≠ PDH_NO_DATA ∧
    (CreateQuery (fun _ _ => ⟨PDH_INVALID_HANDLE, 5, none⟩) []).ret
      = (CreateQuery (fun _ _ => ⟨PDH_NO_DATA, 5, none⟩) []).ret ∧
    (CreateCounter (fun _ _ => ⟨PDH_INVALID_HANDLE, 5, none⟩) [] 1 "cpu" "bad path").ret
      = (CreateCounter (fun _ _ => ⟨PDH_NO_DATA, 5, none⟩) [] 1 "cpu" "bad path").ret ∧
    ¬ ∃ recover : Option Errno → Nat, ∀ s : Nat, s ≠ 0 →
        ∃ hq err, (CreateQuery (fun _ _ => ⟨s, 5, none⟩) []).ret = some (hq, err) ∧
          recover err = s := by
  refine ⟨by decide, by decide, by decide, by decide, by decide, ?_⟩
  rintro ⟨recover, hrec⟩
  obtain ⟨h1, e1, hr1, hs1⟩ := hrec 1 (by decide)
  obtain ⟨h2, e2, hr2, hs2⟩ := hrec 2 (by decide)
  simp [CreateQuery, Proc.Call] at hr1 hr2
  rw [← hr1.2] at hs1
  rw [← hr2.2] at hs2
  omega

/-- Claim C2, amended. For `CreateQuery` and `CreateCounter`: for every non-zero
status returned by the native call of the run, the operation fails (handle 0,
respectively a nil `CounterInfo`) and the error it returns is the last-error value
that accompanied the call, whatever the status is. -/
theorem failure_returns_last_error (s e : Nat) (w : Option Handle) (hs : s ≠ 0) :
    (∀ (p : Proc OpenQueryArgs PdhResp) (hist : List (Event OpenQueryArgs PdhResp))
        (a : OpenQueryArgs),
        (CreateQuery p hist).log = hist ++ [⟨a, ⟨s, e, w⟩⟩] →
        (CreateQuery p hist).ret = some (0, some e)) ∧
    (∀ (p : Proc AddCounterArgs PdhResp) (hist : List (Event AddCounterArgs PdhResp))
        (q : Handle) (k v : String) (a : AddCounterArgs),
        (CreateCounter p hist q k v).log = hist ++ [⟨a, ⟨s, e, w⟩⟩] →
        (CreateCounter p hist q k v).ret = some (none, some e)) := by
  constructor
  · intro p hist a hcall
    have hresp : p hist ⟨0, 0⟩ = ⟨s, e, w⟩ := by
      unfold CreateQuery at hcall
      simp only [Proc.Call] at hcall
      split at hcall <;> simp at hcall <;> exact hcall.2
    simp [CreateQuery, Proc.Call, hresp, hs]
  · intro p hist q k v a hcall
    obtain ⟨hv, hev⟩ := CreateCounter_log hcall
    have hresp : p hist ⟨q, v, 0⟩ = ⟨s, e, w⟩ := (congrArg Event.resp hev).symm
    simp [CreateCounter, hv, Proc.Call, hresp, hs]

/-- Witness of C2 (amended): status `PDH_INVALID_HANDLE` with last-error 5. -/
theorem failure_returns_last_error_witness :
    (CreateQuery (fun _ _ => ⟨PDH_INVALID_HANDLE, 5, some 9⟩) []).ret = some (0, some 5) ∧
    (CreateCounter (fun _ _ => ⟨PDH_INVALID_HANDLE, 5, some 9⟩) [] 1 "cpu" "bad path").ret
      = some (none, some 5) :=
  ⟨(failure_returns_last_error PDH_INVALID_HANDLE 5 (some 9) (by decide)).1
      (fun _ _ => ⟨PDH_INVALID_HANDLE, 5, some 9⟩) [] ⟨0, 0⟩ (by decide),
   (failure_returns_last_error PDH_INVALID_HANDLE 5 (some 9) (by decide)).2
      (fun _ _ => ⟨PDH_INVALID_HANDLE, 5, some 9⟩) [] 1 "cpu" "bad path" ⟨1, "bad path", 0⟩
      (by decide)⟩

/-- Claim C4. `CreateQuery` succeeds exactly when the native open-query status is
0: with status 0 it returns the query handle stored by the native call and a nil
error; with a non-zero status it returns handle 0, whatever the native call stored
through the out-pointer, together with the error reported by the gateway. -/
theorem CreateQuery_spec (p : Proc OpenQueryArgs PdhResp)
    (hist : List (Event OpenQueryArgs PdhResp)) (s e : Nat) (w : Option Handle)
    (hresp : p hist ⟨0, 0⟩ = ⟨s, e, w⟩) :
    (CreateQuery p hist).log = hist ++ [⟨⟨0, 0⟩, ⟨s, e, w⟩⟩] ∧
    (s = 0 → ∀ h, w = some h → (CreateQuery p hist).ret = some (h, none)) ∧
    (s ≠ 0 → (CreateQuery p hist).ret = some (0, some e)) ∧
    ((∃ h, (CreateQuery p hist).ret = some (h, none)) ↔ s = 0) := by
  by_cases hs : s = 0
  · subst hs
    refine ⟨?_, ?_, ?_, ?_⟩
    · simp [CreateQuery, Proc.Call, hresp]
    · rintro - h rfl
      simp [CreateQuery, Proc.Call, hresp]
    · intro h
      exact absurd rfl h
    · simp [CreateQuery, Proc.Call, hresp]
  · refine ⟨?_, ?_, ?_, ?_⟩
    · simp [CreateQuery, Proc.Call, hresp, hs]
    · intro h
      exact absurd h hs
    · intro _
      simp [CreateQuery, Proc.Call, hresp, hs]
    · simp [CreateQuery, Proc.Call, hresp, hs]

/-- Witness of C4: a failing open that nevertheless stored 9 through the pointer. -/
theorem CreateQuery_spec_witness :
    (CreateQuery (fun _ _ => ⟨PDH_NO_DATA, 5, some 9⟩) []).ret = some (0, some 5) ∧
    (CreateQuery (fun _ _ => ⟨0, 5, some 9⟩) []).ret = some (9, none) :=
  ⟨(CreateQuery_spec (fun _ _ => ⟨PDH_NO_DATA, 5, some 9⟩) [] PDH_NO_DATA 5 (some 9) rfl).2.2.1
      (by decide),
   (CreateQuery_spec (fun _ _ => ⟨0, 5, some 9⟩) [] 0 5 (some 9) rfl).2.1 rfl 9 rfl⟩

/-- Claim C6. The status-code vocabulary keeps its distinctions: `ERROR_SUCCESS`,
`ERROR_FILE_NOT_FOUND`, `PDH_INVALID_HANDLE`, `PDH_INVALID_DATA` and `PDH_NO_DATA`
have the values 0, 2, 0xC0000BBC, 0xC0000BC6 and 0x800007D5, are pairwise distinct,
the three PDH codes are non-zero, and each of the five is below `2^32`. -/
theorem status_codes_distinct :
    ([ERROR_SUCCESS, ERROR_FILE_NOT_FOUND, PDH_INVALID_HANDLE, PDH_INVALID_DATA, PDH_NO_DATA]
      = [0, 2, 0xC0000BBC, 0xC0000BC6, 0x800007D5]) ∧
    [ERROR_SUCCESS, ERROR_FILE_NOT_FOUND, PDH_INVALID_HANDLE, PDH_INVALID_DATA,
      PDH_NO_DATA].Pairwise (· ≠ ·) ∧
    (PDH_INVALID_HANDLE ≠ 0 ∧ PDH_INVALID_DATA ≠ 0 ∧ PDH_NO_DATA ≠ 0) ∧
    (ERROR_SUCCESS < 2 ^ 32 ∧ ERROR_FILE_NOT_FOUND < 2 ^ 32 ∧ PDH_INVALID_HANDLE < 2 ^ 32 ∧
      PDH_INVALID_DATA < 2 ^ 32 ∧ PDH_NO_DATA < 2 ^ 32) := by
  refine ⟨by decide, by decide, by decide, by decide⟩

/-- Claim C3. `readDouble` classifies the status of one get-formatted-value round
trip into a closed four-way outcome: status 0 gives success with the decoded
double; `PDH_INVALID_DATA` or `PDH_NO_DATA` gives Pending; `PDH_INVALID_HANDLE`
gives Invalid; every other non-zero status gives Fatal carrying the raw code.  In
particular a read answered with "no data yet" is Pending and never Fatal, and a
read answered with "invalid handle" is Invalid and never success. -/
theorem readDouble_classifies (p : Proc FormattedArgs FormattedResp)
    (hist : List (Event FormattedArgs FormattedResp)) (c : CounterInfo)
    (s e : Nat) (w : Option PDH_FMT_COUNTERVALUE_DOUBLE)
    (hresp : p hist ⟨c.Counter, PDH_FMT_DOUBLE, 0⟩ = ⟨s, e, w⟩) :
    (readDouble p hist c).log = hist ++ [⟨⟨c.Counter, PDH_FMT_DOUBLE, 0⟩, ⟨s, e, w⟩⟩] ∧
    (s = 0 → ∀ cs d, w = some ⟨cs, d⟩ →
      (readDouble p hist c).ret = some (d, StatusKind.Success)) ∧
    (s = PDH_INVALID_DATA ∨ s = PDH_NO_DATA →
      (readDouble p hist c).ret = some (0, StatusKind.Pending)) ∧
    (s = PDH_INVALID_HANDLE → (readDouble p hist c).ret = some (0, StatusKind.Invalid)) ∧
    (s ≠ 0 → s ≠ PDH_INVALID_DATA → s ≠ PDH_NO_DATA → s ≠ PDH_INVALID_HANDLE →
      (readDouble p hist c).ret = some (0, StatusKind.Fatal s)) ∧
    (s = PDH_NO_DATA → ∀ v code, (readDouble p hist c).ret ≠ some (v, StatusKind.Fatal code)) ∧
    (s = PDH_INVALID_HANDLE → ∀ v, (readDouble p hist c).ret ≠ some (v, StatusKind.Success)) := by
  refine ⟨?_, ?_, ?_, ?_, ?_, ?_, ?_⟩
  · unfold readDouble
    simp only [Proc.Call, hresp]
    split_ifs <;> rfl
  · rintro rfl cs d rfl
    simp [readDouble, Proc.Call, hresp, ERROR_SUCCESS]
  · rintro (rfl | rfl) <;>
      simp [readDouble, Proc.Call, hresp, ERROR_SUCCESS, PDH_INVALID_DATA, PDH_NO_DATA]
  · rintro rfl
    simp [readDouble, Proc.Call, hresp, ERROR_SUCCESS, PDH_INVALID_DATA, PDH_NO_DATA,
      PDH_INVALID_HANDLE]
  · intro h0 h1 h2 h3
    simp [readDouble, Proc.Call, hresp, ERROR_SUCCESS, h0, h1, h2, h3]
  · rintro rfl v code
    simp [readDouble, Proc.Call, hresp, ERROR_SUCCESS, PDH_INVALID_DATA, PDH_NO_DATA]
  · rintro rfl v
    simp [readDouble, Proc.Call, hresp, ERROR_SUCCESS, PDH_INVALID_DATA, PDH_NO_DATA,
      PDH_INVALID_HANDLE]

/-- Witness of C3: a read answered with "no data yet" is Pending, a read answered
with status 0 and the stored value 42 is a success with 42. -/
theorem readDouble_classifies_witness :
    (readDouble (fun _ _ => ⟨PDH_NO_DATA, 0, none⟩) [] ⟨"cpu", "path", 7⟩).ret
      = some (0, StatusKind.Pending) ∧
    (readDouble (fun _ _ => ⟨0, 0, some ⟨0, 42⟩⟩) [] ⟨"cpu", "path", 7⟩).ret
      = some (42, StatusKind.Success) :=
  ⟨(readDouble_classifies (fun _ _ => ⟨PDH_NO_DATA, 0, none⟩) [] ⟨"cpu", "path", 7⟩
      PDH_NO_DATA 0 none rfl).2.2.1 (Or.inr rfl),
   (readDouble_classifies (fun _ _ => ⟨0, 0, some ⟨0, 42⟩⟩) [] ⟨"cpu", "path", 7⟩
      0 0 (some ⟨0, 42⟩) rfl).2.1 rfl 0 42 rfl⟩

/-! ### Registry lookups -/

/-- Marshalling a string either panics or yields the string. -/
theorem StringToUTF16Ptr_cases (s : String) :
    StringToUTF16Ptr s = none ∨ StringToUTF16Ptr s = some s := by
  unfold StringToUTF16Ptr
  cases hasNUL s <;> simp

/-- The run of `RegGetInt` when a string does not marshal: a panic before any call. -/
theorem RegGetInt_panic (p : Proc RegArgs RegResp) (hist : List (Event RegArgs RegResp))
    (hKey : Nat) (subKey value : String)
    (h : StringToUTF16Ptr subKey = none ∨ StringToUTF16Ptr value = none) :
    RegGetInt p hist hKey subKey value = ⟨none, hist⟩ := by
  unfold RegGetInt
  split
  · rename_i sk vl h1 h2
    rcases h with h | h
    · rw [h] at h1
      exact absurd h1 (by simp)
    · rw [h] at h2
      exact absurd h2 (by simp)
  · rfl

/-- The run of `RegGetInt` when both strings marshal: one call. -/
theorem RegGetInt_run (p : Proc RegArgs RegResp) (hist : List (Event RegArgs RegResp))
    (hKey : Nat) (subKey value : String)
    (h1 : StringToUTF16Ptr subKey = some subKey) (h2 : StringToUTF16Ptr value = some value) :
    RegGetInt p hist hKey subKey value =
      ⟨some (if (p hist (intArgs hKey subKey value)).r1 ≠ 0 then
          (0, (p hist (intArgs hKey subKey value)).r1,
            some (p hist (intArgs hKey subKey value)).lastErr)
        else
          ((p hist (intArgs hKey subKey value)).data.headD 0 % 2 ^ 32,
            (p hist (intArgs hKey subKey value)).r1, none)),
        hist ++ [⟨intArgs hKey subKey value, p hist (intArgs hKey subKey value)⟩]⟩ := by
  unfold RegGetInt
  rw [h1, h2]
  simp only [Proc.Call, intArgs, ERROR_SUCCESS]
  split_ifs <;> rfl

/-- The run of `RegGetString` when a string does not marshal: a panic before any
call. -/
theorem RegGetString_panic (dec : List Nat → String) (p : Proc RegArgs RegResp)
    (hist : List (Event RegArgs RegResp)) (hKey : Nat) (subKey value : String)
    (h : StringToUTF16Ptr subKey = none ∨ StringToUTF16Ptr value = none) :
    RegGetString dec p hist hKey subKey value = ⟨none, hist⟩ := by
  unfold RegGetString
  split
  · rename_i sk vl h1 h2
    rcases h with h | h
    · rw [h] at h1
      exact absurd h1 (by simp)
    · rw [h] at h2
      exact absurd h2 (by simp)
  · rfl

/-- The run of `RegGetString` when both strings marshal and the probing call fails
or reports length zero: one call. -/
theorem RegGetString_run_one (dec : List Nat → String) (p : Proc RegArgs RegResp)
    (hist : List (Event RegArgs RegResp)) (hKey : Nat) (subKey value : String)
    (h1 : StringToUTF16Ptr subKey = some subKey) (h2 : StringToUTF16Ptr value = some value)
    (h : (p hist (probeArgs hKey subKey value)).r1 ≠ 0 ∨
      (p hist (probeArgs hKey subKey value)).cbData.getD 0 % 2 ^ 32 = 0) :
    RegGetString dec p hist hKey subKey value =
      ⟨some (if (p hist (probeArgs hKey subKey value)).r1 ≠ 0 then
          ("", (p hist (probeArgs hKey subKey value)).r1,
            some (p hist (probeArgs hKey subKey value)).lastErr)
        else
          ("", (p hist (probeArgs hKey subKey value)).r1, none)),
        hist ++ [⟨probeArgs hKey subKey value, p hist (probeArgs hKey subKey value)⟩]⟩ := by
  unfold RegGetString
  rw [h1, h2]
  simp only [Proc.Call, probeArgs, ERROR_SUCCESS] at h ⊢
  by_cases hr : (p hist ⟨hKey, subKey, value, RRF_RT_REG_SZ, 0, none, 0⟩).r1 = 0
  · have hl := h.resolve_left (fun hne => hne hr)
    rw [if_neg (not_not.mpr hr), if_pos hl, if_neg (not_not.mpr hr)]
  · rw [if_pos hr, if_pos hr]

/-- The run of `RegGetString` when both strings marshal and the probing call
succeeds with a non-zero length: two calls, the second with a buffer of the
reported length. -/
theorem RegGetString_run_two (dec : List Nat → String) (p : Proc RegArgs RegResp)
    (hist : List (Event RegArgs RegResp)) (hKey : Nat) (subKey value : String)
    (h1 : StringToUTF16Ptr subKey = some subKey) (h2 : StringToUTF16Ptr value = some value)
    (r r2 : RegResp) (n : Nat)
    (hr : p hist (probeArgs hKey subKey value) = r) (hs : r.r1 = 0)
    (hn : r.cbData.getD 0 % 2 ^ 32 = n) (hpos : n ≠ 0)
    (hr2 : p (hist ++ [⟨probeArgs hKey subKey value, r⟩]) (fetchArgs hKey subKey value n) = r2) :
    RegGetString dec p hist hKey subKey value =
      ⟨some (if r2.r1 ≠ 0 then ("", r2.r1, some r2.lastErr)
        else (dec (storeInto (List.replicate n 0) (r2.data.map (· % 2 ^ 16))), r2.r1, none)),
        hist ++ [⟨probeArgs hKey subKey value, r⟩] ++ [⟨fetchArgs hKey subKey value n, r2⟩]⟩ := by
  unfold RegGetString
  rw [h1, h2]
  simp only [probeArgs, fetchArgs] at hr hr2
  simp only [Proc.Call, probeArgs, fetchArgs, ERROR_SUCCESS, hr, hs, hn, hr2]
  simp only [ne_eq, not_true_eq_false, if_false, hpos]
  split_ifs <;> rfl

/-- The native calls of a run of `RegGetString`, after the history it started from:
none when a string does not marshal, the probing call alone when it fails or
reports length zero, the probing call and the fetching call otherwise. -/
theorem RegGetString_calls (dec : List Nat → String) (p : Proc RegArgs RegResp)
    (hist : List (Event RegArgs RegResp)) (hKey : Nat) (subKey value : String)
    (calls : List (Event RegArgs RegResp))
    (hcall : (RegGetString dec p hist hKey subKey value).log = hist ++ calls) :
    (calls = [] ∧ (RegGetString dec p hist hKey subKey value).ret = none) ∨
    (∃ r, p hist (probeArgs hKey subKey value) = r ∧
      (r.r1 ≠ 0 ∨ r.cbData.getD 0 % 2 ^ 32 = 0) ∧
      calls = [⟨probeArgs hKey subKey value, r⟩] ∧
      (RegGetString dec p hist hKey subKey value).ret =
        some (if r.r1 ≠ 0 then ("", r.r1, some r.lastErr) else ("", r.r1, none))) ∨
    (∃ r r2 n, p hist (probeArgs hKey subKey value) = r ∧ r.r1 = 0 ∧
      r.cbData.getD 0 % 2 ^ 32 = n ∧ n ≠ 0 ∧
      p (hist ++ [⟨probeArgs hKey subKey value, r⟩]) (fetchArgs hKey subKey value n) = r2 ∧
      calls = [⟨probeArgs hKey subKey value, r⟩, ⟨fetchArgs hKey subKey value n, r2⟩] ∧
      (RegGetString dec p hist hKey subKey value).ret =
        some (if r2.r1 ≠ 0 then ("", r2.r1, some r2.lastErr)
          else (dec (storeInto (List.replicate n 0) (r2.data.map (· % 2 ^ 16))), r2.r1, none))) := by
  rcases StringToUTF16Ptr_cases subKey with h1 | h1
  · have hrun := RegGetString_panic dec p hist hKey subKey value (Or.inl h1)
    rw [hrun] at hcall ⊢
    exact Or.inl ⟨(List.self_eq_append_right.mp hcall), rfl⟩
  rcases StringToUTF16Ptr_cases value with h2 | h2
  · have hrun := RegGetString_panic dec p hist hKey subKey value (Or.inr h2)
    rw [hrun] at hcall ⊢
    exact Or.inl ⟨(List.self_eq_append_right.mp hcall), rfl⟩
  by_cases h : (p hist (probeArgs hKey subKey value)).r1 ≠ 0 ∨
      (p hist (probeArgs hKey subKey value)).cbData.getD 0 % 2 ^ 32 = 0
  · have hrun := RegGetString_run_one dec p hist hKey subKey value h1 h2 h
    rw [hrun] at hcall ⊢
    exact Or.inr (Or.inl ⟨_, rfl, h, (List.append_cancel_left hcall).symm, rfl⟩)
  · push_neg at h
    have hrun := RegGetString_run_two dec p hist hKey subKey value h1 h2 _ _ _ rfl h.1 rfl h.2 rfl
    rw [hrun] at hcall ⊢
    rw [List.append_assoc] at hcall
    exact Or.inr (Or.inr ⟨_, _, _, rfl, h.1, rfl, h.2, rfl,
      (List.append_cancel_left hcall).symm, rfl⟩)

/-- The native calls of a run of `RegGetInt`, after the history it started from:
none when a string does not marshal, one otherwise. -/
theorem RegGetInt_calls (p : Proc RegArgs RegResp)
    (hist : List (Event RegArgs RegResp)) (hKey : Nat) (subKey value : String)
    (calls : List (Event RegArgs RegResp))
    (hcall : (RegGetInt p hist hKey subKey value).log = hist ++ calls) :
    (calls = [] ∧ (RegGetInt p hist hKey subKey value).ret = none) ∨
    (∃ r, p hist (intArgs hKey subKey value) = r ∧
      calls = [⟨intArgs hKey subKey value, r⟩] ∧
      (RegGetInt p hist hKey subKey value).ret =
        some (if r.r1 ≠ 0 then (0, r.r1, some r.lastErr)
          else (r.data.headD 0 % 2 ^ 32, r.r1, none))) := by
  rcases StringToUTF16Ptr_cases subKey with h1 | h1
  · have hrun := RegGetInt_panic p hist hKey subKey value (Or.inl h1)
    rw [hrun] at hcall ⊢
    exact Or.inl ⟨(List.self_eq_append_right.mp hcall), rfl⟩
  rcases StringToUTF16Ptr_cases value with h2 | h2
  · have hrun := RegGetInt_panic p hist hKey subKey value (Or.inr h2)
    rw [hrun] at hcall ⊢
    exact Or.inl ⟨(List.self_eq_append_right.mp hcall), rfl⟩
  have hrun := RegGetInt_run p hist hKey subKey value h1 h2
  rw [hrun] at hcall ⊢
  exact Or.inr ⟨_, rfl, (List.append_cancel_left hcall).symm, rfl⟩

/-- Claim C5. `RegGetString` distinguishes "key exists, empty value" from "not
found": for every key path and value name, if the size-probing native call of the
run returns status 0 with reported length 0, `RegGetString` returns `("", 0, nil)`
and makes no second native call; if it returns `ERROR_FILE_NOT_FOUND` (2),
`RegGetString` returns `("", 2, err)` with the gateway's error.  The two outcomes
differ in the status code and in the error. -/
theorem RegGetString_empty_vs_not_found (dec : List Nat → String) (p : Proc RegArgs RegResp)
    (hist : List (Event RegArgs RegResp)) (hKey : Nat) (subKey value : String)
    (a : RegArgs) (r : RegResp) (rest : List (Event RegArgs RegResp))
    (hcall : (RegGetString dec p hist hKey subKey value).log = hist ++ ⟨a, r⟩ :: rest) :
    a = probeArgs hKey subKey value ∧
    (r.r1 = 0 → r.cbData = some 0 →
      (RegGetString dec p hist hKey subKey value).ret = some ("", 0, none) ∧ rest = []) ∧
    (r.r1 = ERROR_FILE_NOT_FOUND →
      (RegGetString dec p hist hKey subKey value).ret = some ("", 2, some r.lastErr) ∧
      rest = [] ∧
      (RegGetString dec p hist hKey subKey value).ret ≠ some ("", 0, none)) := by
  rcases RegGetString_calls dec p hist hKey subKey value _ hcall with
    ⟨hc, -⟩ | ⟨r1, -, hr1, hc, hret⟩ | ⟨r1, r2, n, -, hs, hn, hpos, -, hc, hret⟩
  · exact absurd hc (by simp)
  · simp only [List.cons.injEq, Event.mk.injEq] at hc
    obtain ⟨⟨rfl, rfl⟩, rfl⟩ := hc
    refine ⟨rfl, ?_, ?_⟩
    · intro h0 _
      rw [hret]
      simp [h0]
    · intro h2
      rw [hret]
      simp [h2, ERROR_FILE_NOT_FOUND]
  · simp only [List.cons.injEq, Event.mk.injEq] at hc
    obtain ⟨⟨rfl, rfl⟩, rfl⟩ := hc
    refine ⟨rfl, ?_, ?_⟩
    · intro _ hlen
      rw [hlen] at hn
      exact absurd hn.symm hpos
    · intro h2
      rw [hs] at h2
      exact absurd h2 (by decide)

/-- Witness of C5: an empty value, and a missing key with last-error 2. -/
theorem RegGetString_empty_vs_not_found_witness :
    (RegGetString (fun _ => "x") (fun _ _ => ⟨0, 0, [], some 0⟩) [] HKEY_LOCAL_MACHINE
        "SOFTWARE" "Name").ret = some ("", 0, none) ∧
    (RegGetString (fun _ => "x") (fun _ _ => ⟨2, 2, [], none⟩) [] HKEY_LOCAL_MACHINE
        "SOFTWARE" "Name").ret = some ("", 2, some 2) :=
  ⟨((RegGetString_empty_vs_not_found (fun _ => "x") (fun _ _ => ⟨0, 0, [], some 0⟩) []
      HKEY_LOCAL_MACHINE "SOFTWARE" "Name" (probeArgs HKEY_LOCAL_MACHINE "SOFTWARE" "Name")
      ⟨0, 0, [], some 0⟩ [] (by decide)).2.1 rfl rfl).1,
   ((RegGetString_empty_vs_not_found (fun _ => "x") (fun _ _ => ⟨2, 2, [], none⟩) []
      HKEY_LOCAL_MACHINE "SOFTWARE" "Name" (probeArgs HKEY_LOCAL_MACHINE "SOFTWARE" "Name")
      ⟨2, 2, [], none⟩ [] (by decide)).2.2 rfl).1⟩

/-- Claim C7. Registry lookups return the native status unchanged: for `RegGetInt`
and `RegGetString` and every native layer, the returned status code is the status
of the last native call the run made (`ev`); when that status is non-zero the
returned value is the zero value (0, respectively the empty string) and the error
is the gateway's error for that call; when it is zero the error is nil, and
`RegGetInt` returns the 32-bit number the native call stored. -/
theorem registry_status_preserved (p : Proc RegArgs RegResp)
    (hist : List (Event RegArgs RegResp)) (hKey : Nat) (subKey value : String)
    (calls : List (Event RegArgs RegResp)) (ev : Event RegArgs RegResp)
    (hlast : calls.getLast? = some ev) :
    ((RegGetInt p hist hKey subKey value).log = hist ++ calls →
      ∃ num err, (RegGetInt p hist hKey subKey value).ret = some (num, ev.resp.r1, err) ∧
        (ev.resp.r1 ≠ 0 → num = 0 ∧ err = some ev.resp.lastErr) ∧
        (ev.resp.r1 = 0 → err = none ∧ num = ev.resp.data.headD 0 % 2 ^ 32)) ∧
    (∀ dec : List Nat → String,
      (RegGetString dec p hist hKey subKey value).log = hist ++ calls →
      ∃ str err, (RegGetString dec p hist hKey subKey value).ret = some (str, ev.resp.r1, err) ∧
        (ev.resp.r1 ≠ 0 → str = "" ∧ err = some ev.resp.lastErr) ∧
        (ev.resp.r1 = 0 → err = none)) := by
  constructor
  · intro hcall
    rcases RegGetInt_calls p hist hKey subKey value calls hcall with
      ⟨hc, -⟩ | ⟨r, -, hc, hret⟩
    · rw [hc] at hlast
      exact absurd hlast (by simp)
    · rw [hc] at hlast
      simp only [List.getLast?_singleton, Option.some.injEq] at hlast
      subst hlast
      by_cases hr : r.r1 = 0
      · exact ⟨r.data.headD 0 % 2 ^ 32, none, by rw [hret, if_neg (not_not.mpr hr)],
          fun h => absurd hr h, fun _ => ⟨rfl, rfl⟩⟩
      · exact ⟨0, some r.lastErr, by rw [hret, if_pos hr],
          fun _ => ⟨rfl, rfl⟩, fun h => absurd h hr⟩
  · intro dec hcall
    rcases RegGetString_calls dec p hist hKey subKey value calls hcall with
      ⟨hc, -⟩ | ⟨r, -, -, hc, hret⟩ | ⟨r, r2, n, -, -, -, -, -, hc, hret⟩
    · rw [hc] at hlast
      exact absurd hlast (by simp)
    · rw [hc] at hlast
      simp only [List.getLast?_singleton, Option.some.injEq] at hlast
      subst hlast
      by_cases hr : r.r1 = 0
      · exact ⟨"", none, by rw [hret, if_neg (not_not.mpr hr)],
          fun h => absurd hr h, fun _ => rfl⟩
      · exact ⟨"", some r.lastErr, by rw [hret, if_pos hr],
          fun _ => ⟨rfl, rfl⟩, fun h => absurd h hr⟩
    · rw [hc] at hlast
      have hev : ev = ⟨fetchArgs hKey subKey value n, r2⟩ := by
        simpa using hlast.symm
      subst hev
      by_cases hr : r2.r1 = 0
      · exact ⟨_, none, by rw [hret, if_neg (not_not.mpr hr)],
          fun h => absurd hr h, fun _ => rfl⟩
      · exact ⟨"", some r2.lastErr, by rw [hret, if_pos hr],
          fun _ => ⟨rfl, rfl⟩, fun h => absurd h hr⟩

/-- Witness of C7: `RegGetInt` on a native layer that stores 42 with status 0, and
`RegGetString` on one whose probing call reports length 3 and whose fetching call
fails with status 234 and last-error 5. -/
theorem registry_status_preserved_witness :
    (RegGetInt (fun _ _ => ⟨0, 0, [42], some 4⟩) [] HKEY_LOCAL_MACHINE
        "SOFTWARE" "Count").ret = some (42, 0, none) ∧
    (RegGetString (fun _ => "x")
        (fun hist _ => if hist = [] then ⟨0, 0, [], some 3⟩ else ⟨234, 5, [], none⟩) []
        HKEY_LOCAL_MACHINE "SOFTWARE" "Name").ret = some ("", 234, some 5) := by
  constructor
  · obtain ⟨num, err, h1, -, h3⟩ :=
      (registry_status_preserved (fun _ _ => ⟨0, 0, [42], some 4⟩) [] HKEY_LOCAL_MACHINE
        "SOFTWARE" "Count" [⟨intArgs HKEY_LOCAL_MACHINE "SOFTWARE" "Count", ⟨0, 0, [42], some 4⟩⟩]
        ⟨intArgs HKEY_LOCAL_MACHINE "SOFTWARE" "Count", ⟨0, 0, [42], some 4⟩⟩ rfl).1 (by decide)
    obtain ⟨rfl, rfl⟩ := h3 rfl
    exact h1
  · obtain ⟨str, err, h1, h2, -⟩ :=
      (registry_status_preserved
        (fun hist _ => if hist = [] then ⟨0, 0, [], some 3⟩ else ⟨234, 5, [], none⟩) []
        HKEY_LOCAL_MACHINE "SOFTWARE" "Name"
        [⟨probeArgs HKEY_LOCAL_MACHINE "SOFTWARE" "Name", ⟨0, 0, [], some 3⟩⟩,
          ⟨fetchArgs HKEY_LOCAL_MACHINE "SOFTWARE" "Name" 3, ⟨234, 5, [], none⟩⟩]
        ⟨fetchArgs HKEY_LOCAL_MACHINE "SOFTWARE" "Name" 3, ⟨234, 5, [], none⟩⟩ rfl).2
        (fun _ => "x") (by decide)
    obtain ⟨rfl, rfl⟩ := h2 (by decide)
    exact h1

/-! ### Network adapters -/

/-- The error of `syscall.GetAdaptersInfo` is `ERROR_BUFFER_OVERFLOW` exactly when
the native result is 111. -/
theorem errnoOf_eq_overflow (r0 : Nat) :
    errnoOf r0 = some ERROR_BUFFER_OVERFLOW ↔ r0 = ERROR_BUFFER_OVERFLOW := by
  unfold errnoOf ERROR_BUFFER_OVERFLOW
  by_cases h : r0 = 0
  · subst h
    simp
  · simp [h]

/-- The end of `GetAdapterList`, by the native result of the last call. -/
theorem finish_eq (a : List Nat) (r0 : Nat) (log : List (Event AdaptersArgs AdaptersResp)) :
    GetAdapterList.finish a (errnoOf r0) log =
      ⟨some (if r0 ≠ 0 then (none, some ⟨"GetAdaptersInfo", r0⟩) else (some a, none)), log⟩ := by
  unfold GetAdapterList.finish errnoOf NewSyscallError
  by_cases h : r0 = 0
  · subst h
    simp
  · simp [h]

/-- The length of the slice made at line 173. -/
theorem length_first_buffer : (List.replicate 1000 (0 : Nat)).length = 1000 :=
  List.length_replicate _ _

/-- The run of `GetAdapterList` when the first call does not answer
`ERROR_BUFFER_OVERFLOW`: one call. -/
theorem GetAdapterList_run_one (p : Proc AdaptersArgs AdaptersResp)
    (hist : List (Event AdaptersArgs AdaptersResp)) (r : AdaptersResp)
    (hr : p hist firstArgs = r) (hne : r.r0 ≠ ERROR_BUFFER_OVERFLOW) :
    GetAdapterList p hist =
      ⟨some (if r.r0 ≠ 0 then (none, some ⟨"GetAdaptersInfo", r.r0⟩)
        else (some (filled 1000 r), none)), hist ++ [⟨firstArgs, r⟩]⟩ := by
  have hov : ¬ errnoOf r.r0 = some ERROR_BUFFER_OVERFLOW :=
    fun h => hne ((errnoOf_eq_overflow _).mp h)
  unfold firstArgs at hr
  unfold GetAdapterList
  simp only [Proc.Call]
  rw [length_first_buffer]
  simp only [Nat.reduceMod, Nat.reducePow, hr]
  rw [if_neg hov]
  exact finish_eq _ _ _

/-- The run of `GetAdapterList` when the first call answers `ERROR_BUFFER_OVERFLOW`
and reports length zero: `&b[0]` is out of range, after one call. -/
theorem GetAdapterList_run_panic (p : Proc AdaptersArgs AdaptersResp)
    (hist : List (Event AdaptersArgs AdaptersResp)) (r : AdaptersResp)
    (hr : p hist firstArgs = r) (hov : r.r0 = ERROR_BUFFER_OVERFLOW) (hl : reported r = 0) :
    GetAdapterList p hist = ⟨none, hist ++ [⟨firstArgs, r⟩]⟩ := by
  have hov2 : errnoOf r.r0 = some ERROR_BUFFER_OVERFLOW := (errnoOf_eq_overflow _).mpr hov
  unfold firstArgs at hr
  unfold reported at hl
  unfold GetAdapterList
  simp only [Proc.Call]
  rw [length_first_buffer]
  simp only [Nat.reduceMod, Nat.reducePow, hr] at hl ⊢
  rw [if_pos hov2, List.length_replicate, if_pos hl]
  rfl

/-- The run of `GetAdapterList` when the first call answers `ERROR_BUFFER_OVERFLOW`
and reports a non-zero length: two calls, the second with a buffer of the reported
length. -/
theorem GetAdapterList_run_two (p : Proc AdaptersArgs AdaptersResp)
    (hist : List (Event AdaptersArgs AdaptersResp)) (r r2 : AdaptersResp)
    (hr : p hist firstArgs = r) (hov : r.r0 = ERROR_BUFFER_OVERFLOW) (hl : reported r ≠ 0)
    (hr2 : p (hist ++ [⟨firstArgs, r⟩]) ⟨reported r, reported r⟩ = r2) :
    GetAdapterList p hist =
      ⟨some (if r2.r0 ≠ 0 then (none, some ⟨"GetAdaptersInfo", r2.r0⟩)
        else (some (filled (reported r) r2), none)),
        hist ++ [⟨firstArgs, r⟩] ++ [⟨⟨reported r, reported r⟩, r2⟩]⟩ := by
  have hov2 : errnoOf r.r0 = some ERROR_BUFFER_OVERFLOW := (errnoOf_eq_overflow _).mpr hov
  unfold firstArgs at hr hr2
  unfold reported at hl hr2
  unfold GetAdapterList
  simp only [Proc.Call]
  rw [length_first_buffer]
  simp only [Nat.reduceMod, Nat.reducePow, hr] at hl hr2 ⊢
  rw [if_pos hov2, List.length_replicate, if_neg hl, hr2]
  exact finish_eq _ _ _

/-- Counterexample to C8 as stated: when the first call answers
`ERROR_BUFFER_OVERFLOW` and reports length 0, the slice made for the second call is
empty and `&b[0]` is out of range: no second call is made although the first
returned `ERROR_BUFFER_OVERFLOW`, and the function returns neither an error nor an
adapter list. -/
theorem GetAdapterList_zero_length :
    (GetAdapterList (fun _ _ => ⟨ERROR_BUFFER_OVERFLOW, [], some 0⟩) []).log
      = [⟨⟨1000, 1000⟩, ⟨ERROR_BUFFER_OVERFLOW, [], some 0⟩⟩] ∧
    (GetAdapterList (fun _ _ => ⟨ERROR_BUFFER_OVERFLOW, [], some 0⟩) []).ret = none := by
  rw [GetAdapterList_run_panic (fun _ _ => ⟨ERROR_BUFFER_OVERFLOW, [], some 0⟩) []
    ⟨ERROR_BUFFER_OVERFLOW, [], some 0⟩ rfl rfl (by decide)]
  exact ⟨rfl, rfl⟩

/-- Claim C8, amended. The buffer-sizing logic of `GetAdapterList`, for every native
layer whose first answer `r1`, when it is `ERROR_BUFFER_OVERFLOW`, reports a
non-zero length: the native call is made at most twice (`calls`), first with a
buffer of 1000 bytes; the second call is made if and only if the first returns
`ERROR_BUFFER_OVERFLOW`, and then with a buffer whose size is the length the first
call reported; the function returns `(nil, SyscallError("GetAdaptersInfo", err))`
if and only if the last call made returned a non-nil error, and otherwise returns
the adapter list of the last buffer with a nil error. -/
theorem GetAdapterList_sizing (p : Proc AdaptersArgs AdaptersResp)
    (hist : List (Event AdaptersArgs AdaptersResp)) (r1 : AdaptersResp)
    (hr1 : p hist firstArgs = r1)
    (hlen : r1.r0 = ERROR_BUFFER_OVERFLOW → reported r1 ≠ 0) :
    ∃ calls last, (GetAdapterList p hist).log = hist ++ calls ∧
      calls.length ≤ 2 ∧
      calls.head? = some ⟨firstArgs, r1⟩ ∧
      (calls.length = 2 ↔ r1.r0 = ERROR_BUFFER_OVERFLOW) ∧
      (∀ ev, calls.get? 1 = some ev →
        ev.args = ⟨reported r1, reported r1⟩ ∧
        ev.resp = p (hist ++ [⟨firstArgs, r1⟩]) ⟨reported r1, reported r1⟩) ∧
      calls.getLast? = some last ∧
      ((GetAdapterList p hist).ret = some (none, some ⟨"GetAdaptersInfo", last.resp.r0⟩)
        ↔ last.resp.r0 ≠ 0) ∧
      (last.resp.r0 = 0 →
        (GetAdapterList p hist).ret = some (some (filled last.args.bufSize last.resp), none)) := by
  by_cases hov : r1.r0 = ERROR_BUFFER_OVERFLOW
  · have hrun := GetAdapterList_run_two p hist r1 _ hr1 hov (hlen hov) rfl
    generalize p (hist ++ [⟨firstArgs, r1⟩]) ⟨reported r1, reported r1⟩ = r2 at hrun ⊢
    refine ⟨[⟨firstArgs, r1⟩, ⟨⟨reported r1, reported r1⟩, r2⟩], ⟨⟨reported r1, reported r1⟩, r2⟩,
      ?_, by simp, rfl, ?_, ?_, rfl, ?_, ?_⟩
    · rw [hrun, List.append_assoc]
      rfl
    · simp [hov]
    · intro ev hev
      simp only [List.get?_cons_succ, List.get?_cons_zero, Option.some.injEq] at hev
      subst hev
      exact ⟨rfl, rfl⟩
    · rw [hrun]
      by_cases h0 : r2.r0 = 0
      · simp [h0]
      · simp [h0]
    · intro h0
      rw [hrun]
      simp only at h0
      simp [h0]
  · have hrun := GetAdapterList_run_one p hist r1 hr1 hov
    refine ⟨[⟨firstArgs, r1⟩], ⟨firstArgs, r1⟩, ?_, by simp, rfl, ?_, ?_, rfl, ?_, ?_⟩
    · rw [hrun]
    · simp [hov]
    · intro ev hev
      simp at hev
    · rw [hrun]
      by_cases h0 : r1.r0 = 0
      · simp [h0]
      · simp [h0]
    · intro h0
      rw [hrun]
      simp only at h0
      simp [h0, firstArgs]

/-- Witness of C8 (amended): a native layer that first answers
`ERROR_BUFFER_OVERFLOW` with length 2000 and then succeeds. -/
theorem GetAdapterList_sizing_witness :
    (GetAdapterList (fun hist _ =>
      if hist = [] then ⟨ERROR_BUFFER_OVERFLOW, [], some 2000⟩ else ⟨0, [1, 2, 3], none⟩) []).ret
      = some (some (filled 2000 ⟨0, [1, 2, 3], none⟩), none) := by
  obtain ⟨calls, last, -, -, -, hiff, hsecond, hlast, -, hok⟩ :=
    GetAdapterList_sizing
      (fun hist _ =>
        if hist = [] then ⟨ERROR_BUFFER_OVERFLOW, [], some 2000⟩ else ⟨0, [1, 2, 3], none⟩)
      [] ⟨ERROR_BUFFER_OVERFLOW, [], some 2000⟩ rfl (fun _ => by decide)
  obtain ⟨a, b, rfl⟩ := List.length_eq_two.mp (hiff.mpr rfl)
  obtain ⟨hargs, hresp⟩ := hsecond b rfl
  have hb : last = b := by
    simpa using hlast.symm
  subst hb
  have hresp2 : last.resp = ⟨0, [1, 2, 3], none⟩ := by
    rw [hresp]
    decide
  have hsize : last.args.bufSize = 2000 := by
    rw [hargs]
    decide
  rw [hresp2, hsize] at hok
  exact hok rfl

/-! ### C strings -/

/-- The scan from index `i` when the first zero byte at or after `i` is at index
`z`, inside the array: the indices `i, ..., z` are read and the loop stops at `z`. -/
theorem loop_stops (a : Nat → Nat) (z : Nat) (hz : z < 10000) (haz : a z = 0) :
    ∀ d i, i + d = z → (∀ j, i ≤ j → j < z → a j ≠ 0) →
      BytePtrToString.loop a i = ⟨List.range' i (d + 1), some z⟩ := by
  intro d
  induction d with
  | zero =>
    intro i hi _
    have hiz : i = z := by omega
    subst hiz
    rw [BytePtrToString.loop, if_pos hz, if_neg (not_not.mpr haz)]
    rfl
  | succ d ih =>
    intro i hi hnz
    have hlt : i < 10000 := by omega
    have hai : a i ≠ 0 := hnz i (Nat.le_refl i) (by omega)
    rw [BytePtrToString.loop, if_pos hlt, if_pos hai,
      ih (i + 1) (by omega) (fun j hj hjz => hnz j (by omega) hjz)]
    rw [List.range'_succ i (d + 1)]

/-- The scan from index `i` when no byte from `i` to the end of the array is zero:
every index up to 9999 is read and the index leaves the array. -/
theorem loop_overruns (a : Nat → Nat) :
    ∀ d i, i + d = 10000 → (∀ j, i ≤ j → j < 10000 → a j ≠ 0) →
      BytePtrToString.loop a i = ⟨List.range' i d, none⟩ := by
  intro d
  induction d with
  | zero =>
    intro i hi _
    have hge : ¬ i < 10000 := by omega
    rw [BytePtrToString.loop, if_neg hge]
    rfl
  | succ d ih =>
    intro i hi hnz
    have hlt : i < 10000 := by omega
    have hai : a i ≠ 0 := hnz i (Nat.le_refl i) hlt
    rw [BytePtrToString.loop, if_pos hlt, if_pos hai,
      ih (i + 1) (by omega) (fun j hj hjz => hnz j (by omega) hjz)]
    rw [List.range'_succ i d]

/-- The index of the first zero byte, when there is a zero byte below `n`. -/
theorem exists_first_zero (a : Nat → Nat) (n : Nat) (h : ∃ j, j < n ∧ a j = 0) :
    ∃ z, z < n ∧ a z = 0 ∧ ∀ j, j < z → a j ≠ 0 := by
  classical
  refine ⟨Nat.find h, (Nat.find_spec h).1, (Nat.find_spec h).2, ?_⟩
  intro j hj haj
  exact Nat.find_min h hj ⟨Nat.lt_trans hj (Nat.find_spec h).1, haj⟩

/-- Claim C9. `BytePtrToString` returns the C string at the pointer: for every byte
sequence `a` whose first zero byte is at index `i` with `i < 10000`, the result is
the first `i` bytes of the sequence (the empty string when `i = 0`); it has length
`i`, contains no zero byte, and is the same for every sequence that agrees with `a`
up to index `i`. -/
theorem BytePtrToString_cstring (a : Nat → Nat) (i : Nat) (hi : i < 10000)
    (hzero : a i = 0) (hfirst : ∀ j, j < i → a j ≠ 0) :
    BytePtrToString a = some ((List.range i).map a) ∧
    (i = 0 → BytePtrToString a = some []) ∧
    ((List.range i).map a).length = i ∧
    0 ∉ (List.range i).map a ∧
    (∀ b : Nat → Nat, (∀ j, j ≤ i → b j = a j) → BytePtrToString b = BytePtrToString a) := by
  have hrun : ∀ b : Nat → Nat, (∀ j, j ≤ i → b j = a j) →
      BytePtrToString b = some ((List.range i).map a) := by
    intro b hb
    have hloop := loop_stops b i hi (by rw [hb i (Nat.le_refl i)]; exact hzero) i 0
      (by omega) (fun j _ hj => by rw [hb j (Nat.le_of_lt hj)]; exact hfirst j hj)
    unfold BytePtrToString
    rw [hloop]
    simp only [Option.map_some', Option.some.injEq]
    apply List.map_congr_left
    intro j hj
    exact hb j (Nat.le_of_lt (List.mem_range.mp hj))
  have ha := hrun a (fun _ _ => rfl)
  refine ⟨ha, ?_, by simp, ?_, ?_⟩
  · rintro rfl
    rw [ha]
    rfl
  · intro hmem
    obtain ⟨j, hj, hj0⟩ := List.mem_map.mp hmem
    exact hfirst j (List.mem_range.mp hj) hj0
  · intro b hb
    rw [hrun b hb, ha]

/-- Witness of C9: the bytes `72, 105, 0, 7, 7, ...` give the string of bytes
`72, 105`. -/
theorem BytePtrToString_cstring_witness :
    BytePtrToString (fun j => if j = 0 then 72 else if j = 1 then 105 else if j = 2 then 0 else 7)
      = some [72, 105] :=
  (BytePtrToString_cstring
    (fun j => if j = 0 then 72 else if j = 1 then 105 else if j = 2 then 0 else 7) 2
    (by decide) (by decide) (by decide)).1

/-- Claim C10. The scan of `BytePtrToString` is safe and terminating exactly when a
zero byte lies within the window of 10000 bytes: if some byte at an index below
10000 is zero, the loop stops at an index `i ≤ 9999` (after `i` increments), having
read the indices `0, ..., i` and no index from 10000 on, and a string is returned;
if none of the first 10000 bytes is zero, the scan reads every index below 10000,
the index reaches 10000 and is out of the range of the array, and no string is
returned. -/
theorem BytePtrToString_scan (a : Nat → Nat) :
    ((∃ j, j < 10000 ∧ a j = 0) →
      ∃ i, i ≤ 9999 ∧ BytePtrToString.loop a 0 = ⟨List.range (i + 1), some i⟩ ∧
        (∀ idx, idx ∈ (BytePtrToString.loop a 0).reads → idx < 10000) ∧
        (BytePtrToString a).isSome = true) ∧
    ((∀ j, j < 10000 → a j ≠ 0) →
      BytePtrToString.loop a 0 = ⟨List.range 10000, none⟩ ∧ BytePtrToString a = none) ∧
    ((BytePtrToString a).isSome = true ↔ ∃ j, j < 10000 ∧ a j = 0) := by
  have hyes : (∃ j, j < 10000 ∧ a j = 0) →
      ∃ i, i ≤ 9999 ∧ BytePtrToString.loop a 0 = ⟨List.range (i + 1), some i⟩ := by
    intro h
    obtain ⟨z, hz, haz, hfirst⟩ := exists_first_zero a 10000 h
    refine ⟨z, by omega, ?_⟩
    rw [loop_stops a z hz haz z 0 (by omega) (fun j _ hj => hfirst j hj), List.range_eq_range']
  have hno : (∀ j, j < 10000 → a j ≠ 0) →
      BytePtrToString.loop a 0 = ⟨List.range 10000, none⟩ := by
    intro h
    rw [loop_overruns a 10000 0 (by omega) (fun j _ hj => h j hj), List.range_eq_range']
  refine ⟨?_, ?_, ?_⟩
  · intro h
    obtain ⟨i, hi, hloop⟩ := hyes h
    refine ⟨i, hi, hloop, ?_, ?_⟩
    · intro idx hidx
      rw [hloop] at hidx
      have := List.mem_range.mp hidx
      omega
    · unfold BytePtrToString
      rw [hloop]
      rfl
  · intro h
    refine ⟨hno h, ?_⟩
    unfold BytePtrToString
    rw [hno h]
    rfl
  · constructor
    · intro hsome
      by_contra hcon
      have hall : ∀ j, j < 10000 → a j ≠ 0 := fun j hj h0 => hcon ⟨j, hj, h0⟩
      unfold BytePtrToString at hsome
      rw [hno hall] at hsome
      exact absurd hsome (by simp)
    · intro h
      obtain ⟨i, -, hloop⟩ := hyes h
      unfold BytePtrToString
      rw [hloop]
      rfl

/-- Witness of C10: a sequence with a zero at index 2, and a sequence without any
zero. -/
theorem BytePtrToString_scan_witness :
    (∃ i, i ≤ 9999 ∧
      BytePtrToString.loop (fun j => if j = 2 then 0 else 65) 0 = ⟨List.range (i + 1), some i⟩ ∧
      (∀ idx, idx ∈ (BytePtrToString.loop (fun j => if j = 2 then 0 else 65) 0).reads →
        idx < 10000) ∧
      (BytePtrToString (fun j => if j = 2 then 0 else 65)).isSome = true) ∧
    (BytePtrToString.loop (fun _ => 65) 0 = ⟨List.range 10000, none⟩ ∧
      BytePtrToString (fun _ => 65) = none) :=
  ⟨(BytePtrToString_scan (fun j => if j = 2 then 0 else 65)).1 ⟨2, by decide, by decide⟩,
   (BytePtrToString_scan (fun _ => 65)).2.1 (fun _ _ => by decide)⟩

end Windows
